import Mathlib

/-!
Shallow embedding of `src/writer.rs` (the `VdbWriter` of vdb-rs), together
with theorems checking the natural-language specification of the archive
writer against it.

Conventions of the embedding:
* The byte stream is a `List Nat` (each entry `< 256`); a Rust `u8` byte
  is a `Nat`.
* Machine integers are `Nat`/`Int` with explicit reduction modulo `2^w`
  where the code truncates.
* Code that can panic (`unwrap`) is embedded in `Option`: `Option.none`
  is a panic, never an error value.
* Rust `String` is Lean `String`; `String::len()` (the UTF-8 byte length)
  is `utf8Len`, `chars().nth(i)` is `s.data.get? i`.
-/

namespace VdbRs

/-- Little-endian encoding of `v` into exactly `k` bytes, as produced by
Rust's `to_le_bytes` on a `k`-byte unsigned integer. -/
def leBytes : Nat → Nat → List Nat
  | 0, _ => []
  | k + 1, v => (v % 256) :: leBytes k (v / 256)

/-- Two's-complement reinterpretation of a signed integer as an unsigned
`w`-bit value, as done by Rust's `to_le_bytes` on `i32`/`i64`. -/
def toUnsigned (w : Nat) (v : Int) : Nat := (v % (2 ^ w : Nat)).toNat

/-- Source: `const OPENVDB_MAJOR_VERSION: u32 = 11` (src/writer.rs:14). -/
def OPENVDB_MAJOR_VERSION : Nat := 11

/-- Source: `const OPENVDB_MINOR_VERSION: u32 = 0` (src/writer.rs:15). -/
def OPENVDB_MINOR_VERSION : Nat := 0

/-- Source: `const OPENVDB_FILE_VERSION: u32 = 224` (src/writer.rs:17). -/
def OPENVDB_FILE_VERSION : Nat := 224

/-- Source: `const MAGIC: u64 = 0x2042445600000000` (src/writer.rs:33). -/
def MAGIC : Nat := 0x2042445600000000

/-- Rust `String::len()`: the UTF-8 byte length of the string. -/
def utf8Len (s : String) : Nat := (s.data.map Char.utf8Size).sum

/-- Holds (as `true`) iff every character of the string is ASCII (single-byte UTF-8). -/
def allAscii (s : String) : Bool := s.data.all (fun c => c.toNat ≤ 127)

/-- The loop body of `VdbWriter::write_string` (src/writer.rs:217-224):
starting at character index `i` with `k` iterations left, each iteration
writes `string.chars().nth(i).unwrap() as u8` — `Option.none` models the
panic when `nth` yields `None`. -/
def writeBytesFrom (chars : List Char) : Nat → Nat → Option (List Nat)
  | _, 0 => some []
  | i, k + 1 =>
    match chars[i]? with
    | Option.none => Option.none
    | some c => (writeBytesFrom chars (i + 1) k).map (fun bs => (c.toNat % 256) :: bs)

/-- Embeds `VdbWriter::write_string` (src/writer.rs:216-226): loops `i` over
`0..string.len()` (the BYTE length) and writes the `i`-th CHARACTER,
truncated to `u8`. -/
def write_string (s : String) : Option (List Nat) :=
  writeBytesFrom s.data 0 (utf8Len s)

/-- Embeds `VdbWriter::write_name` (src/writer.rs:211-214): length prefix
(`string.len()` as 8-byte little-endian `usize`) followed by
`write_string`. -/
def write_name (s : String) : Option (List Nat) :=
  (write_string s).map (fun bs => leBytes 8 (utf8Len s) ++ bs)

/-- The metadata value union matched by `write_metadata`
(src/writer.rs:176-207).  The variants and their payloads are those the
writer destructures: `String`, `Bool`, `I32`, `I64`, `Float`, `Vec3i`,
`Unknown { name, data }`.  The float is carried as its 32-bit pattern
(the writer only ever turns it into 4 little-endian bytes); `Vec3i`
components are `i32`. -/
inductive MetadataValue where
  | String (s : String)
  | Bool (b : Bool)
  | I32 (v : Int)
  | I64 (v : Int)
  | Float (bits : Nat)
  | Vec3i (x y z : Int)
  | Unknown (name : String) (data : List Nat)
deriving DecidableEq

/-- Modelled from the spec: `Metadata` lives in `crate::data_structure`,
which is not under `src/`; per the spec it is "an ordered mapping from
name (text) to MetadataValue".  The writer accesses it as `metadata.0`
(an iterable of key/value pairs in the mapping's defined order). -/
structure Metadata where
  entries : List (String × MetadataValue)
deriving DecidableEq

/-- The type-name tag written by `write_metadata` (src/writer.rs:176-184). -/
def data_type_string : MetadataValue → String
  | MetadataValue.String _ => "string"
  | MetadataValue.Bool _ => "bool"
  | MetadataValue.I32 _ => "int32"
  | MetadataValue.I64 _ => "int64"
  | MetadataValue.Float _ => "float"
  | MetadataValue.Vec3i _ _ _ => "vec3i"
  | MetadataValue.Unknown name _ => name

/-- The declared payload length written by `write_metadata`
(src/writer.rs:189-193): the string's byte length, the blob's byte
length, and `0` for everything else. -/
def data_len : MetadataValue → Nat
  | MetadataValue.String s => utf8Len s
  | MetadataValue.Unknown _ data => data.length
  | _ => 0

/-- Embeds `VdbWriter::write_i_vec3` (src/writer.rs:228-232): x, y, z as
little-endian `i32`, in that order. -/
def write_i_vec3 (x y z : Int) : List Nat :=
  leBytes 4 (toUnsigned 32 x) ++ leBytes 4 (toUnsigned 32 y) ++ leBytes 4 (toUnsigned 32 z)

/-- The payload bytes written for one metadata value by `write_metadata`
(src/writer.rs:199-207).  Only the `String` arm can panic (via
`write_string`); the numeric arms write their fixed-width encodings. -/
def write_value : MetadataValue → Option (List Nat)
  | MetadataValue.String s => write_string s
  | MetadataValue.Bool b => some [if b then 1 else 0]
  | MetadataValue.I32 v => some (leBytes 4 (toUnsigned 32 v))
  | MetadataValue.I64 v => some (leBytes 8 (toUnsigned 64 v))
  | MetadataValue.Float bits => some (leBytes 4 (bits % 2 ^ 32))
  | MetadataValue.Vec3i x y z => some (write_i_vec3 x y z)
  | MetadataValue.Unknown _ data => some data

/-- Embeds `VdbWriter::write_metadata` (src/writer.rs:164-209): the entry count
(`metadata.0.len()` as 8-byte little-endian `usize`), then sequentially,
for each entry: the length-prefixed name, the length-prefixed type-name
tag, the declared payload length, and the payload bytes.  The
accumulator is the byte stream written so far. -/
def write_metadata (m : Metadata) : Option (List Nat) :=
  m.entries.foldlM
    (fun acc kv => do
      let nameB ← write_name kv.1
      let tagB ← write_name (data_type_string kv.2)
      let valB ← write_value kv.2
      pure (acc ++ (nameB ++ (tagB ++ (leBytes 8 (data_len kv.2) ++ valB)))))
    (leBytes 8 m.entries.length)

/-- The per-entry wire layout as §4.3 of the spec words it: "the name
(length-prefixed text), a type-name tag (one of the fixed strings
"string"/"bool"/"int32"/"int64"/"float"/"vec3i", or, for opaque values,
the blob's own carried type name), the payload byte length, and the
payload itself". -/
def specMetadataEntry (kv : String × MetadataValue) : Option (List Nat) := do
  let nameB ← write_name kv.1
  let tagB ← write_name (data_type_string kv.2)
  let valB ← write_value kv.2
  pure (nameB ++ (tagB ++ (leBytes 8 (data_len kv.2) ++ valB)))

/-- The whole-mapping wire layout as §4.3 of the spec words it: "Writes
entry count, then for each entry in the mapping's defined order" the
per-entry layout. -/
def specMetadataBytes (m : Metadata) : Option (List Nat) := do
  let es ← m.entries.mapM specMetadataEntry
  pure (leBytes 8 m.entries.length ++ es.flatten)

/-- The compression enum (spec §2: one of {none, simple, adaptive};
`Compression::default()` is "none").  Modelled from the spec:
`Compression` lives in `crate::data_structure`, which is not under
`src/`; the writer only ever uses `Compression::default()`. -/
inductive Compression where
  | none
  | simple
  | adaptive
deriving DecidableEq

/-- The `GridDescriptor` record, with exactly the fields `VdbWriter::write`
constructs (src/writer.rs:138-148): resolved name, file version,
instance-parent name, value-type tag, three offsets, compression, and a
metadata bag.  The struct itself lives in `crate::data_structure`
(not under `src/`); its field list is fixed by the record expression in
the writer. -/
structure GridDescriptor where
  name : String
  file_version : Nat
  instance_parent : String
  grid_type : String
  grid_pos : Nat
  block_pos : Nat
  end_pos : Nat
  compression : Compression
  meta_data : Metadata
deriving DecidableEq

/-- Modelled from the spec: a `Grid` is "a `GridDescriptor` plus
ownership of a `Tree`" (spec §3); `crate::data_structure` is not under
`src/`.  Tree *identity* (the key of the writer's `tree_map`, which the
spec says is "structural identity, not content equality") is modelled as
a stable `Nat` handle, as the spec's design notes prescribe. -/
structure Grid where
  descriptor : GridDescriptor
  tree : Nat
deriving DecidableEq

/-- Modelled from the spec: `Metadata::is_half_float` lives in
`crate::data_structure` (not under `src/`); per the spec it reports
whether "a grid's source metadata marks its values as half-precision
floats", i.e. whether the marker entry is present and true. -/
def Metadata.is_half_float (m : Metadata) : Bool :=
  m.entries.any (fun kv =>
    kv.1 == "is_saved_as_half_float" &&
      match kv.2 with
      | MetadataValue.Bool true => true
      | _ => false)

/-- Modelled from the spec: `GridDescriptor::add_suffix` lives in
`crate::data_structure` (not under `src/`); per the spec it "appends a
numeric suffix" to the name (OpenVDB's `name[n]` convention).  The
theorems about the resolver's loop never depend on the exact suffix
shape, only on `add_suffix` being a function. -/
def add_suffix (name : String) (n : Nat) : String :=
  name ++ "[" ++ toString n ++ "]"

/-- Association-list lookup standing for `HashMap::get` on the writer's
`name_count` map (src/writer.rs:110). -/
def lookup_count (m : List (String × Nat)) (k : String) : Option Nat :=
  (m.find? (fun p => p.1 == k)).map (fun p => p.2)

/-- One step of the first pass of `VdbWriter::write`
(src/writer.rs:108-115): bump the count of a name if present, else
insert it with count 1. -/
def bump (m : List (String × Nat)) (k : String) : List (String × Nat) :=
  if (lookup_count m k).isSome then
    m.map (fun p => if p.1 == k then (p.1, p.2 + 1) else p)
  else
    m ++ [(k, 1)]

/-- The first pass of `VdbWriter::write` (src/writer.rs:108-115): count
occurrences of each requested grid name, iterating the grids in input
order. -/
def build_name_count (names : List String) : List (String × Nat) :=
  names.foldl bump []

/-- The `while unique_names.contains(&name)` loop of `VdbWriter::write`
(src/writer.rs:131-134).  `fuel` bounds the number of loop-body
executions (the condition is checked before each body, as in `while`);
`Option.none` means the loop was still running when the fuel ran out.
Faithful to the source, the body always retries `add_suffix(orig, 1)`:
the counter `n` is initialised to 1 but never incremented. -/
def resolve_loop (orig cand : String) (used : List String) (fuel : Nat) : Option String :=
  if cand ∈ used then
    match fuel with
    | 0 => Option.none
    | f + 1 => resolve_loop orig (add_suffix orig 1) used f
  else some cand

/-- Name resolution for one grid (src/writer.rs:126-134): suffix the name
with 0 if it is empty or requested more than once, then run the retry
loop against the names written so far. -/
def resolve_name (nc : List (String × Nat)) (used : List String) (orig : String)
    (fuel : Nat) : Option String :=
  let cand :=
    if orig = "" ∨ 1 < (lookup_count nc orig).getD 0 then add_suffix orig 0 else orig
  resolve_loop orig cand used fuel

/-- The second pass of `VdbWriter::write` over all grids, threading the
`unique_names` set (src/writer.rs:117-135): resolve each name in input
order and insert the resolved name into the set. -/
def resolve_all_with (nc : List (String × Nat)) :
    List String → List String → Nat → Option (List String)
  | [], _, _ => some []
  | g :: gs, used, fuel => do
    let n ← resolve_name nc used g fuel
    let rest ← resolve_all_with nc gs (used ++ [n]) fuel
    pure (n :: rest)

/-- Both passes of the name resolution in `VdbWriter::write`
(src/writer.rs:106-135), starting from an empty `unique_names` set. -/
def resolve_all (names : List String) (fuel : Nat) : Option (List String) :=
  resolve_all_with (build_name_count names) names [] fuel

/-- The descriptor `VdbWriter::write` constructs for one grid
(src/writer.rs:138-155): the resolved name, the file version, an EMPTY
instance-parent, the grid's type, all three offsets zero, the default
compression, and a metadata bag that is empty except for the
synthesized half-float marker. -/
def make_descriptor (g : Grid) (resolved : String) : GridDescriptor :=
  { name := resolved
    file_version := OPENVDB_FILE_VERSION
    instance_parent := ""
    grid_type := g.descriptor.grid_type
    grid_pos := 0
    block_pos := 0
    end_pos := 0
    compression := Compression.none
    meta_data :=
      if (Metadata.is_half_float g.descriptor.meta_data) then
        ⟨[("is_saved_as_half_float", MetadataValue.Bool true)]⟩
      else
        ⟨[]⟩ }

/-- Embeds `VdbWriter::write` (src/writer.rs:92-162): writes the archive-level
metadata, then the grid count (`grids.len()` as 8-byte little-endian
`usize`), then runs the per-grid loop.  Faithful to the source, the loop
only resolves names and builds descriptors in memory — it writes no
descriptor and no tree bytes to the stream (`tree_map.values()` is a
no-op expression and the function then returns `true`).  The result is
(bytes written, descriptors built, returned boolean). -/
def vdb_write (grids : List Grid) (metadata : Metadata) (fuel : Nat) :
    Option (List Nat × List GridDescriptor × Bool) := do
  let metaB ← write_metadata metadata
  let countB := leBytes 8 grids.length
  let names ← resolve_all (grids.map (fun g => g.descriptor.name)) fuel
  pure (metaB ++ countB, (grids.zip names).map (fun p => make_descriptor p.1 p.2), true)

/-- A concrete input grid used to exercise `write`: name `nm`, empty
metadata, and tree-identity handle 7 (both demo grids share it). -/
def demo_grid (nm : String) : Grid where
  descriptor :=
    { name := nm
      file_version := 0
      instance_parent := ""
      grid_type := "Tree_float_5_4_3"
      grid_pos := 0
      block_pos := 0
      end_pos := 0
      compression := Compression.none
      meta_data := ⟨[]⟩ }
  tree := 7

/-- The descriptor `write` builds for a demo grid whose name needs no
suffix: resolved name `nm`, empty instance-parent, all offsets zero. -/
def demo_written_descriptor (nm : String) : GridDescriptor where
  name := nm
  file_version := 224
  instance_parent := ""
  grid_type := "Tree_float_5_4_3"
  grid_pos := 0
  block_pos := 0
  end_pos := 0
  compression := Compression.none
  meta_data := ⟨[]⟩

/-- Embeds `to_hex` (src/writer.rs:54-61): the low nibble of `c` as an upper-case
hex character (`'0'..'9'`, `'A'..'F'`). -/
def to_hex (c : Nat) : Char :=
  let c := c % 16
  if c < 10 then Char.ofNat (48 + c) else Char.ofNat (65 + (c - 10))

/-- A Rust `[char; 37]` array, as the map from index to element;
`upd` is an index assignment `a[i] = c`. -/
def upd (a : Nat → Char) (i : Nat) (c : Char) : Nat → Char :=
  fun k => if k = i then c else a k

/-- Rust `<[T]>::swap(i, j)` on a char array. -/
def arrSwap (a : Nat → Char) (i j : Nat) : Nat → Char :=
  upd (upd a i (a j)) j (a i)

/-- The UUID construction of `VdbWriter::new` (src/writer.rs:53-83):
start from 37 `'0'`s; for `i` in `0..4`, fill positions `i*8+j` with the
nibbles of the `i`-th random `u32` (low nibble first, since `v >>= 4`
after each character); put `'-'` at positions 32..35; swap them into
positions 8, 13, 18, 23; NUL-terminate position 36.  `r0..r3` are the
four values `rng.gen()` returned. -/
def uuidArr (r0 r1 r2 r3 : Nat) : Nat → Char :=
  let rs := [r0, r1, r2, r3]
  let base : Nat → Char := fun _ => '0'
  let filled := (List.range 4).foldl
    (fun acc i => (List.range 8).foldl
      (fun acc2 j => upd acc2 (i * 8 + j) (to_hex ((rs.getD i 0) >>> (4 * j)))) acc)
    base
  let hyphened := (List.range 4).foldl (fun acc i => upd acc (32 + i) '-') filled
  let s1 := arrSwap hyphened 32 8
  let s2 := arrSwap s1 33 13
  let s3 := arrSwap s2 34 18
  let s4 := arrSwap s3 35 23
  upd s4 36 (Char.ofNat 0)

/-- The UUID bytes `VdbWriter::new` writes to the stream
(src/writer.rs:86-88): the characters at indices `0..36`, each as `u8`;
the NUL terminator at index 36 is NOT written. -/
def uuidBytes (r0 r1 r2 r3 : Nat) : List Nat :=
  (List.range 36).map (fun i => (uuidArr r0 r1 r2 r3 i).toNat % 256)

/-- The error enum `WriteError` (src/writer.rs:19-23): the single placeholder variant is
all the error enum currently offers. -/
inductive WriteError where
  | PlaceHolderError
deriving DecidableEq

/-- The byte sink standing for the `W: Write + Seek` stream: the bytes
accepted so far, plus a failure model — `budget = Option.none` means every
write succeeds, `budget = some k` means at most `k` more bytes are
accepted before the underlying stream starts returning `Err`. -/
structure Sink where
  bytes : List Nat
  budget : Option Nat
deriving DecidableEq

/-- One `writer.write(..)` call against the sink: `Option.none` is the
stream's `Err` result. -/
def sink_write (s : Sink) (bs : List Nat) : Option Sink :=
  match s.budget with
  | Option.none => some { bytes := s.bytes ++ bs, budget := Option.none }
  | some k =>
    if bs.length ≤ k then
      some { bytes := s.bytes ++ bs, budget := some (k - bs.length) }
    else
      Option.none

/-- Embeds `VdbWriter::new` (src/writer.rs:31-91): magic, file version, major
and minor library versions, seekable flag, then the 36 UUID bytes.
Every stream write is `.unwrap()`ed in the source, so a stream `Err`
is a PANIC: the embedding returns `Option.none`, never a `WriteError`.
On success the result is the final sink and the stored `uuid` field. -/
def vdb_new (s : Sink) (is_seekeable : Bool) (r0 r1 r2 r3 : Nat) :
    Option (Sink × (Nat → Char)) := do
  let s ← sink_write s (leBytes 8 MAGIC)
  let s ← sink_write s (leBytes 4 OPENVDB_FILE_VERSION)
  let s ← sink_write s (leBytes 4 OPENVDB_MAJOR_VERSION)
  let s ← sink_write s (leBytes 4 OPENVDB_MINOR_VERSION)
  let s ← sink_write s [if is_seekeable then 1 else 0]
  let u := uuidArr r0 r1 r2 r3
  let s ← (List.range 36).foldlM (fun st i => sink_write st [(u i).toNat % 256]) s
  pure (s, u)

/-- A byte that is the ASCII code of `'0'..'9'` or of `'A'..'F'`: the
characters `to_hex` can produce. -/
def isHexByte (b : Nat) : Prop := (48 ≤ b ∧ b ≤ 57) ∨ (65 ≤ b ∧ b ≤ 70)

instance (b : Nat) : Decidable (isHexByte b) := by
  unfold isHexByte; exact inferInstance

/-! ## Helper lemmas -/

lemma leBytes_length (k v : Nat) : (leBytes k v).length = k := by
  induction k generalizing v with
  | zero => rfl
  | succ n ih => simp [leBytes, ih]

lemma sink_write_free (bs xs : List Nat) :
    sink_write ⟨bs, Option.none⟩ xs = some ⟨bs ++ xs, Option.none⟩ := rfl

lemma foldlM_sink_free {α : Type} (g : α → Nat) (l : List α) :
    ∀ bs : List Nat,
      l.foldlM (fun st a => sink_write st [g a]) (⟨bs, Option.none⟩ : Sink) =
        some ⟨bs ++ l.map g, Option.none⟩ := by
  induction l with
  | nil => intro bs; simp
  | cons a as ih =>
    intro bs
    simp only [List.foldlM, sink_write_free, Option.bind_eq_bind, Option.some_bind, ih,
      List.map_cons, List.append_assoc, List.singleton_append]

/-- The full byte stream `VdbWriter::new` produces on a stream that never
fails: the 21 header bytes followed by the 36 UUID bytes. -/
lemma vdb_new_free (sk : Bool) (r0 r1 r2 r3 : Nat) :
    vdb_new ⟨[], Option.none⟩ sk r0 r1 r2 r3 =
      some (⟨leBytes 8 MAGIC ++ (leBytes 4 OPENVDB_FILE_VERSION ++
        (leBytes 4 OPENVDB_MAJOR_VERSION ++ (leBytes 4 OPENVDB_MINOR_VERSION ++
          ([if sk then 1 else 0] ++ uuidBytes r0 r1 r2 r3)))), Option.none⟩,
        uuidArr r0 r1 r2 r3) := by
  unfold vdb_new
  simp only [sink_write_free, Option.bind_eq_bind, Option.some_bind, uuidBytes,
    foldlM_sink_free, List.nil_append, List.append_assoc]
  rfl

lemma resolve_loop_eq (orig cand : String) (used : List String) (fuel : Nat) :
    resolve_loop orig cand used fuel =
      if cand ∈ used then
        match fuel with
        | 0 => Option.none
        | f + 1 => resolve_loop orig (add_suffix orig 1) used f
      else some cand := by
  cases fuel <;> rfl

/-- Once the single retried candidate `add_suffix orig 1` is itself
taken, the retry loop can never exit: it yields `Option.none` for every
fuel bound. -/
lemma resolve_loop_stuck (orig : String) (used : List String)
    (h : add_suffix orig 1 ∈ used) :
    ∀ (fuel : Nat) (cand : String), cand ∈ used →
      resolve_loop orig cand used fuel = Option.none := by
  intro fuel
  induction fuel with
  | zero => intro cand hc; rw [resolve_loop_eq]; simp [hc]
  | succ f ih => intro cand hc; rw [resolve_loop_eq]; simp only [hc, if_true]; exact ih _ h

lemma resolve_all_with_head_none {nc : List (String × Nat)} {g : String}
    (gs : List String) {used : List String} {fuel : Nat}
    (h : resolve_name nc used g fuel = Option.none) :
    resolve_all_with nc (g :: gs) used fuel = Option.none := by
  simp [resolve_all_with, h]

lemma resolve_all_with_head_some {nc : List (String × Nat)} {g n : String}
    (gs : List String) {used : List String} {fuel : Nat}
    (h : resolve_name nc used g fuel = some n) :
    resolve_all_with nc (g :: gs) used fuel =
      (resolve_all_with nc gs (used ++ [n]) fuel).map (fun rest => n :: rest) := by
  simp only [resolve_all_with, h, Option.bind_eq_bind, Option.some_bind]
  cases resolve_all_with nc gs (used ++ [n]) fuel <;> rfl

lemma add_suffix_zero_ne_one (s : String) : add_suffix s 0 ≠ add_suffix s 1 := by
  intro h
  have hd := congrArg String.data h
  simp only [add_suffix, String.data_append, List.append_assoc] at hd
  have h2 := List.append_cancel_left hd
  exact absurd h2 (by decide)

lemma count_triple (s : String) :
    (lookup_count (build_name_count [s, s, s]) s).getD 0 = 3 := by
  simp [build_name_count, bump, lookup_count]

/-- On three grids that all request the same name, the resolver's retry
loop never terminates, whatever the iteration bound: the counter `n` is
never incremented, so the third grid retries `add_suffix(s, 1)` — which
the second grid already took — forever. -/
lemma resolve_all_triple (s : String) (fuel : Nat) :
    resolve_all [s, s, s] fuel = Option.none := by
  have hOr : s = "" ∨ 1 < (lookup_count (build_name_count [s, s, s]) s).getD 0 :=
    Or.inr (by rw [count_triple]; norm_num)
  have h1 : ∀ f, resolve_name (build_name_count [s, s, s]) [] s f = some (add_suffix s 0) := by
    intro f
    unfold resolve_name
    rw [if_pos hOr, resolve_loop_eq]
    simp
  rcases fuel with _ | f
  · have h2 : resolve_name (build_name_count [s, s, s]) [add_suffix s 0] s 0 =
        Option.none := by
      unfold resolve_name
      rw [if_pos hOr, resolve_loop_eq]
      simp
    rw [resolve_all, resolve_all_with_head_some _ (h1 0), List.nil_append,
      resolve_all_with_head_none _ h2]
    rfl
  · have h2 : resolve_name (build_name_count [s, s, s]) [add_suffix s 0] s (f + 1) =
        some (add_suffix s 1) := by
      unfold resolve_name
      rw [if_pos hOr, resolve_loop_eq]
      simp only [List.mem_singleton, if_true, reduceIte]
      rw [resolve_loop_eq]
      simp [(add_suffix_zero_ne_one s).symm]
    have h3 : resolve_name (build_name_count [s, s, s])
        [add_suffix s 0, add_suffix s 1] s (f + 1) = Option.none := by
      unfold resolve_name
      rw [if_pos hOr, resolve_loop_eq]
      have hm : add_suffix s 0 ∈ [add_suffix s 0, add_suffix s 1] := by simp
      simp only [hm, if_true, reduceIte]
      exact resolve_loop_stuck s _ (by simp) f _ (by simp)
    rw [resolve_all, resolve_all_with_head_some _ (h1 (f + 1)), List.nil_append,
      resolve_all_with_head_some _ h2]
    simp only [List.cons_append, List.nil_append]
    rw [resolve_all_with_head_none _ h3]
    rfl

lemma utf8Size_eq_one_iff (c : Char) : c.utf8Size = 1 ↔ c.toNat ≤ 127 := by
  have hv : c.val ≤ UInt32.ofNatCore 127 Char.utf8Size.proof_1 ↔ c.toNat ≤ 127 := by
    rw [UInt32.le_def, BitVec.le_def]; exact Iff.rfl
  by_cases h : c.val ≤ UInt32.ofNatCore 127 Char.utf8Size.proof_1
  · simp only [Char.utf8Size, h, if_true]
    exact iff_of_true trivial (hv.mp h)
  · simp only [Char.utf8Size, h, if_false]
    have h2 : ¬ c.toNat ≤ 127 := fun hc => h (hv.mpr hc)
    refine iff_of_false ?_ h2
    split
    · omega
    · split <;> omega

lemma length_le_utf8Len (l : List Char) : l.length ≤ (l.map Char.utf8Size).sum := by
  induction l with
  | nil => simp
  | cons c cs ih =>
    have := Char.utf8Size_pos c
    simp only [List.map_cons, List.sum_cons, List.length_cons]
    omega

lemma utf8Len_eq_length_iff (l : List Char) :
    (l.map Char.utf8Size).sum = l.length ↔ ∀ c ∈ l, c.toNat ≤ 127 := by
  induction l with
  | nil => simp
  | cons c cs ih =>
    have hpos := Char.utf8Size_pos c
    have hlen := length_le_utf8Len cs
    simp only [List.map_cons, List.sum_cons, List.length_cons, List.mem_cons]
    constructor
    · intro h
      have hc : c.utf8Size = 1 := by omega
      have hcs : (cs.map Char.utf8Size).sum = cs.length := by omega
      intro x hx
      rcases hx with hx | hx
      · exact hx ▸ (utf8Size_eq_one_iff c).mp hc
      · exact (ih.mp hcs) x hx
    · intro h
      have hc : c.utf8Size = 1 := (utf8Size_eq_one_iff c).mpr (h c (Or.inl rfl))
      have hcs : (cs.map Char.utf8Size).sum = cs.length :=
        ih.mpr (fun x hx => h x (Or.inr hx))
      omega

lemma writeBytesFrom_some (l : List Char) :
    ∀ (k i : Nat), i + k ≤ l.length →
      ∃ bs, writeBytesFrom l i k = some bs ∧ bs.length = k := by
  intro k
  induction k with
  | zero => intro i _; exact ⟨[], rfl, rfl⟩
  | succ n ih =>
    intro i hi
    have hlt : i < l.length := by omega
    rcases ih (i + 1) (by omega) with ⟨bs, hbs, hlen⟩
    refine ⟨(l[i].toNat % 256) :: bs, ?_, by simp [hlen]⟩
    simp [writeBytesFrom, List.getElem?_eq_getElem hlt, hbs]

lemma writeBytesFrom_none (l : List Char) :
    ∀ (k i : Nat), i ≤ l.length → l.length < i + k →
      writeBytesFrom l i k = Option.none := by
  intro k
  induction k with
  | zero => intro i h1 h2; omega
  | succ n ih =>
    intro i h1 h2
    rcases Nat.lt_or_ge i l.length with hlt | hge
    · simp [writeBytesFrom, List.getElem?_eq_getElem hlt,
        ih (i + 1) (by omega) (by omega)]
    · simp [writeBytesFrom, List.getElem?_eq_none (by omega : l.length ≤ i)]

lemma utf8Len_data (s : String) : utf8Len s = (s.data.map Char.utf8Size).sum := rfl

lemma allAscii_iff (s : String) :
    allAscii s = true ↔ utf8Len s = s.data.length := by
  rw [utf8Len_data, utf8Len_eq_length_iff, allAscii, List.all_eq_true]
  simp

/-- One step of the `write_metadata` loop, written as `specMetadataEntry`
prefixed by the bytes already on the stream. -/
lemma write_metadata_step (acc : List Nat) (kv : String × MetadataValue) :
    (do
      let nameB ← write_name kv.1
      let tagB ← write_name (data_type_string kv.2)
      let valB ← write_value kv.2
      pure (acc ++ (nameB ++ (tagB ++ (leBytes 8 (data_len kv.2) ++ valB))))
      : Option (List Nat)) =
      (specMetadataEntry kv).map (fun e => acc ++ e) := by
  unfold specMetadataEntry
  cases write_name kv.1 <;>
    cases write_name (data_type_string kv.2) <;>
    cases write_value kv.2 <;> rfl

lemma write_metadata_fold (l : List (String × MetadataValue)) :
    ∀ acc : List Nat,
      (l.foldlM
        (fun acc kv => do
          let nameB ← write_name kv.1
          let tagB ← write_name (data_type_string kv.2)
          let valB ← write_value kv.2
          pure (acc ++ (nameB ++ (tagB ++ (leBytes 8 (data_len kv.2) ++ valB)))))
        acc) =
        (l.mapM specMetadataEntry).map (fun es => acc ++ es.flatten) := by
  induction l with
  | nil =>
    intro acc
    simp only [List.foldlM_nil, List.mapM_nil, Option.pure_def, Option.map_some',
      List.flatten_nil, List.append_nil]
  | cons kv l ih =>
    intro acc
    rw [List.foldlM_cons, List.mapM_cons]
    rw [write_metadata_step acc kv]
    cases he : specMetadataEntry kv with
    | none => rfl
    | some e =>
      have key := ih (acc ++ e)
      cases hM : l.mapM specMetadataEntry with
      | none => rw [hM] at key; exact key
      | some es =>
        rw [hM] at key
        refine key.trans ?_
        simp [List.append_assoc]

lemma to_hex_eq (c : Nat) :
    to_hex c = if c % 16 < 10 then Char.ofNat (48 + c % 16)
      else Char.ofNat (65 + (c % 16 - 10)) := rfl

lemma to_hex_byte (v : Nat) : isHexByte ((to_hex v).toNat % 256) := by
  rw [to_hex_eq]
  have h : v % 16 < 16 := Nat.mod_lt _ (by norm_num)
  generalize hm : v % 16 = m at h ⊢
  interval_cases m <;> decide

lemma uuid_getD (r0 r1 r2 r3 : Nat) (k : Nat) (hk : k < 36) :
    (uuidBytes r0 r1 r2 r3).getD k 0 = (uuidArr r0 r1 r2 r3 k).toNat % 256 := by
  rw [uuidBytes, List.getD_eq_getElem?_getD, List.getElem?_map, List.getElem?_range hk]
  rfl

/-! ## Claim theorems -/

/-- C1: the claim says the name-resolution pass in `write` terminates for
every list of input grids, the suffix counter incrementing until an
unused candidate is found.  The code never increments the counter `n`
(src/writer.rs:131-134), so on three grids that all request the name
"a" the loop retries the already-taken candidate `add_suffix("a", 1)`
forever: the pass completes under NO iteration bound.  This refutes the
claim as a statement about the code (the spec describes the evident
intent). -/
theorem c1_name_resolution_not_terminating :
    ∀ fuel : Nat, resolve_all ["a", "a", "a"] fuel = Option.none :=
  resolve_all_triple "a"

/-- C2: the claim says that for EVERY list of grids sharing one name the
resolver produces pairwise-distinct non-empty suffixed names.  The
two-grid instance does hold — two grids named `""` resolve to the
distinct non-empty names `add_suffix "" 0` and `add_suffix "" 1` — but
with three grids sharing the empty name the resolver never terminates
(the retry counter is never incremented), so no resolved names are
produced at all, under any iteration bound. -/
theorem c2_shared_name_resolution :
    resolve_all ["", ""] 1 = some [add_suffix "" 0, add_suffix "" 1] ∧
    add_suffix "" 0 ≠ add_suffix "" 1 ∧
    add_suffix "" 0 ≠ "" ∧
    add_suffix "" 1 ≠ "" ∧
    ∀ fuel : Nat, resolve_all ["", "", ""] fuel = Option.none := by
  refine ⟨by decide, by decide, by decide, by decide, resolve_all_triple ""⟩

/-- C3: the claim says that when two grids own the same tree instance the
tree body is serialized once and the second descriptor's
instance-parent is the first grid's resolved name.  In the code the
per-grid loop builds descriptors but writes neither descriptors nor any
tree bytes, and always leaves `instance_parent` empty
(src/writer.rs:137-159): on two grids "a" and "b" sharing tree handle 7,
`write` emits exactly 16 bytes (metadata count + grid count), zero tree
bodies, and both descriptors carry an empty instance-parent — the second
one does NOT name "a". -/
theorem c3_tree_sharing_unimplemented :
    vdb_write [demo_grid "a", demo_grid "b"] ⟨[]⟩ 5 =
      some ([0, 0, 0, 0, 0, 0, 0, 0] ++ [2, 0, 0, 0, 0, 0, 0, 0],
        [demo_written_descriptor "a", demo_written_descriptor "b"], true) ∧
    (demo_grid "a").tree = (demo_grid "b").tree ∧
    (demo_written_descriptor "b").instance_parent = "" ∧
    (demo_written_descriptor "b").instance_parent ≠ (demo_written_descriptor "a").name ∧
    (demo_written_descriptor "b").block_pos = 0 ∧
    ([0, 0, 0, 0, 0, 0, 0, 0] ++ [2, 0, 0, 0, 0, 0, 0, 0]).length = 16 := by
  refine ⟨by decide, by decide, by decide, by decide, by decide, by decide⟩

/-- C4: `write_metadata` emits the entry count first and then, for each
entry in the mapping's order, the length-prefixed name, the type-name
tag (the fixed string of the variant, or the blob's own carried name),
the payload byte length and the payload (`specMetadataBytes` is that
layout written exactly as the spec words it); an empty mapping writes
exactly the zero count (8 zero bytes) and nothing further. -/
theorem c4_metadata_layout :
    (∀ m : Metadata, write_metadata m = specMetadataBytes m) ∧
    write_metadata ⟨[]⟩ = some [0, 0, 0, 0, 0, 0, 0, 0] ∧
    (∀ s, data_type_string (MetadataValue.String s) = "string") ∧
    (∀ b, data_type_string (MetadataValue.Bool b) = "bool") ∧
    (∀ v, data_type_string (MetadataValue.I32 v) = "int32") ∧
    (∀ v, data_type_string (MetadataValue.I64 v) = "int64") ∧
    (∀ v, data_type_string (MetadataValue.Float v) = "float") ∧
    (∀ x y z, data_type_string (MetadataValue.Vec3i x y z) = "vec3i") ∧
    (∀ nm d, data_type_string (MetadataValue.Unknown nm d) = nm) := by
  refine ⟨?_, rfl, fun _ => rfl, fun _ => rfl, fun _ => rfl, fun _ => rfl,
    fun _ => rfl, fun _ _ _ => rfl, fun _ _ => rfl⟩
  intro m
  unfold write_metadata specMetadataBytes
  rw [write_metadata_fold]
  cases m.entries.mapM specMetadataEntry <;> rfl

/-- C5: the declared payload length is the byte length of the text for
strings and of the blob for opaque values, and zero for every numeric
scalar/vector variant, even though those variants then write a non-empty
payload (1, 4, 8, 4 and 12 bytes respectively); a boolean's payload is
the single byte 1/0 and a vec3i payload is the three little-endian
32-bit components in x,y,z order. -/
theorem c5_declared_lengths :
    ∀ (s nm : String) (b : Bool) (v32 v64 : Int) (fb : Nat) (x y z : Int) (d : List Nat),
      data_len (MetadataValue.String s) = utf8Len s ∧
      data_len (MetadataValue.Unknown nm d) = d.length ∧
      data_len (MetadataValue.Bool b) = 0 ∧
      data_len (MetadataValue.I32 v32) = 0 ∧
      data_len (MetadataValue.I64 v64) = 0 ∧
      data_len (MetadataValue.Float fb) = 0 ∧
      data_len (MetadataValue.Vec3i x y z) = 0 ∧
      write_value (MetadataValue.Bool b) = some [if b then 1 else 0] ∧
      write_value (MetadataValue.Vec3i x y z) =
        some (leBytes 4 (toUnsigned 32 x) ++ leBytes 4 (toUnsigned 32 y) ++
          leBytes 4 (toUnsigned 32 z)) ∧
      (write_value (MetadataValue.I32 v32)).map List.length = some 4 ∧
      (write_value (MetadataValue.I64 v64)).map List.length = some 8 ∧
      (write_value (MetadataValue.Float fb)).map List.length = some 4 ∧
      (write_value (MetadataValue.Vec3i x y z)).map List.length = some 12 := by
  intro s nm b v32 v64 fb x y z d
  refine ⟨rfl, rfl, rfl, rfl, rfl, rfl, rfl, rfl, rfl, ?_, ?_, ?_, ?_⟩
  · simp [write_value, leBytes_length]
  · simp [write_value, leBytes_length]
  · simp [write_value, leBytes_length]
  · simp [write_value, write_i_vec3, leBytes_length]

/-- C6: on every successful `new` call the 21 bytes written before the
UUID are, in order and little-endian: the 8-byte magic
`0x2042445600000000`, the 4-byte file-format version with value 224, the
4-byte major (11) and 4-byte minor (0) library versions, and one byte
that is 1 when the stream is seekable and 0 otherwise; and the UUID is
all that follows (total 57 bytes). -/
theorem c6_header_layout :
    ∀ (sk : Bool) (r0 r1 r2 r3 : Nat),
      (vdb_new ⟨[], Option.none⟩ sk r0 r1 r2 r3).map (fun p => p.1.bytes.take 21) =
        some (leBytes 8 MAGIC ++ leBytes 4 OPENVDB_FILE_VERSION ++
          leBytes 4 OPENVDB_MAJOR_VERSION ++ leBytes 4 OPENVDB_MINOR_VERSION ++
          [if sk then 1 else 0]) ∧
      MAGIC = 0x2042445600000000 ∧
      OPENVDB_FILE_VERSION = 224 ∧
      leBytes 8 MAGIC = [0, 0, 0, 0, 0x56, 0x44, 0x42, 0x20] ∧
      leBytes 4 OPENVDB_FILE_VERSION = [224, 0, 0, 0] ∧
      leBytes 4 OPENVDB_MAJOR_VERSION = [11, 0, 0, 0] ∧
      leBytes 4 OPENVDB_MINOR_VERSION = [0, 0, 0, 0] ∧
      (vdb_new ⟨[], Option.none⟩ sk r0 r1 r2 r3).map (fun p => p.1.bytes.length) =
        some 57 := by
  intro sk r0 r1 r2 r3
  refine ⟨?_, rfl, rfl, by decide, by decide, by decide, by decide, ?_⟩
  · rw [vdb_new_free]
    simp only [Option.map_some']
    rw [show leBytes 8 MAGIC ++ (leBytes 4 OPENVDB_FILE_VERSION ++
        (leBytes 4 OPENVDB_MAJOR_VERSION ++ (leBytes 4 OPENVDB_MINOR_VERSION ++
          ([if sk then 1 else 0] ++ uuidBytes r0 r1 r2 r3)))) =
        (leBytes 8 MAGIC ++ leBytes 4 OPENVDB_FILE_VERSION ++
          leBytes 4 OPENVDB_MAJOR_VERSION ++ leBytes 4 OPENVDB_MINOR_VERSION ++
          [if sk then 1 else 0]) ++ uuidBytes r0 r1 r2 r3 from by
      simp [List.append_assoc]]
    rw [List.take_left' (by simp [leBytes_length])]
  · rw [vdb_new_free]
    simp [leBytes_length, uuidBytes]

/-- C7: for every four sampled 32-bit values the persisted UUID field is
exactly 36 bytes of text: hyphens (byte 45, `'-'`) at character offsets
8, 13, 18 and 23, hexadecimal characters (`'0'..'9'`/`'A'..'F'`)
everywhere else, no NUL terminator among the written bytes, and the
field is precisely what follows the 21-byte header on the stream. -/
theorem c7_uuid_layout :
    ∀ r0 r1 r2 r3 : Nat,
      (uuidBytes r0 r1 r2 r3).length = 36 ∧
      (uuidBytes r0 r1 r2 r3).getD 8 0 = 45 ∧
      (uuidBytes r0 r1 r2 r3).getD 13 0 = 45 ∧
      (uuidBytes r0 r1 r2 r3).getD 18 0 = 45 ∧
      (uuidBytes r0 r1 r2 r3).getD 23 0 = 45 ∧
      (∀ k, k < 36 → k ≠ 8 → k ≠ 13 → k ≠ 18 → k ≠ 23 →
        isHexByte ((uuidBytes r0 r1 r2 r3).getD k 0)) ∧
      (∀ k, k < 36 → (uuidBytes r0 r1 r2 r3).getD k 0 ≠ 0) ∧
      (vdb_new ⟨[], Option.none⟩ true r0 r1 r2 r3).map (fun p => p.1.bytes.drop 21) =
        some (uuidBytes r0 r1 r2 r3) := by
  intro r0 r1 r2 r3
  have hA : (uuidBytes r0 r1 r2 r3).getD 8 0 = 45 := rfl
  have hB : (uuidBytes r0 r1 r2 r3).getD 13 0 = 45 := rfl
  have hC : (uuidBytes r0 r1 r2 r3).getD 18 0 = 45 := rfl
  have hD : (uuidBytes r0 r1 r2 r3).getD 23 0 = 45 := rfl
  have hhex : ∀ k, k < 36 → k ≠ 8 → k ≠ 13 → k ≠ 18 → k ≠ 23 →
      isHexByte ((uuidBytes r0 r1 r2 r3).getD k 0) := by
    intro k hk h8 h13 h18 h23
    interval_cases k
    all_goals first
      | exact absurd rfl h8
      | exact absurd rfl h13
      | exact absurd rfl h18
      | exact absurd rfl h23
      | exact to_hex_byte _
  refine ⟨rfl, hA, hB, hC, hD, hhex, ?_, ?_⟩
  · intro k hk
    by_cases h8 : k = 8
    · rw [h8, hA]; decide
    · by_cases h13 : k = 13
      · rw [h13, hB]; decide
      · by_cases h18 : k = 18
        · rw [h18, hC]; decide
        · by_cases h23 : k = 23
          · rw [h23, hD]; decide
          · rcases hhex k hk h8 h13 h18 h23 with ⟨h1, _⟩ | ⟨h1, _⟩ <;> omega
  · rw [vdb_new_free]
    simp only [Option.map_some', reduceIte]
    rw [show leBytes 8 MAGIC ++ (leBytes 4 OPENVDB_FILE_VERSION ++
        (leBytes 4 OPENVDB_MAJOR_VERSION ++ (leBytes 4 OPENVDB_MINOR_VERSION ++
          ([1] ++ uuidBytes r0 r1 r2 r3)))) =
        (leBytes 8 MAGIC ++ leBytes 4 OPENVDB_FILE_VERSION ++
          leBytes 4 OPENVDB_MAJOR_VERSION ++ leBytes 4 OPENVDB_MINOR_VERSION ++
          [1]) ++ uuidBytes r0 r1 r2 r3 from by simp [List.append_assoc]]
    rw [List.drop_left' (by simp [leBytes_length])]

/-- Witness for C7 at the concrete input `r0 = r1 = r2 = r3 = 0`. -/
theorem c7_uuid_layout_witness :
    isHexByte ((uuidBytes 0 0 0 0).getD 0 0) ∧ (uuidBytes 0 0 0 0).getD 35 0 ≠ 0 :=
  ⟨(c7_uuid_layout 0 0 0 0).2.2.2.2.2.1 0 (by norm_num) (by norm_num) (by norm_num)
      (by norm_num) (by norm_num),
    (c7_uuid_layout 0 0 0 0).2.2.2.2.2.2.1 35 (by norm_num)⟩

/-- C8: the claim says stream failures surface as `WriteError::Io` and an
unregistered value type surfaces as `WriteError::UnsupportedValueType`.
In the code `WriteError` has only the `PlaceHolderError` variant — no
`Io`, no `UnsupportedValueType` — every stream write in `new` is
`.unwrap()`ed (a stream failure PANICS, modelled as `Option.none`
here), and `write` returns the plain boolean `true`, not a `Result`. -/
theorem c8_error_surfacing :
    (∀ e : WriteError, e = WriteError.PlaceHolderError) ∧
    vdb_new ⟨[], some 0⟩ true 0 0 0 0 = Option.none ∧
    (vdb_write [] ⟨[]⟩ 0).map (fun p => p.2.2) = some true := by
  refine ⟨fun e => by cases e; rfl, rfl, rfl⟩

/-- C9: name resolution is deterministic.  The resolver consults its
only unordered container, the `name_count` hash map, exclusively through
keyed lookups, so its output is invariant under the map's iteration
order / representation: any two association lists presenting the same
lookup function yield the identical sequence of resolved names, for
every input list, fuel bound and prior-names set; no random source is
consulted at all (the embedding of `write` takes none). -/
theorem c9_name_resolution_deterministic :
    ∀ (names : List String) (fuel : Nat) (nc1 nc2 : List (String × Nat)),
      (∀ k, lookup_count nc1 k = lookup_count nc2 k) →
      ∀ used, resolve_all_with nc1 names used fuel = resolve_all_with nc2 names used fuel := by
  intro names fuel nc1 nc2 h
  induction names with
  | nil => intro used; rfl
  | cons g gs ih =>
    intro used
    have hg : resolve_name nc1 used g fuel = resolve_name nc2 used g fuel := by
      unfold resolve_name; rw [h g]
    simp only [resolve_all_with]
    rw [hg]
    cases hr : resolve_name nc2 used g fuel with
    | none => rfl
    | some n =>
      simp only [Option.bind_eq_bind, Option.some_bind]
      rw [ih (used ++ [n])]

/-- Witness for C9: two different association-list presentations of the
same counts (the second carries an extra shadowed entry) resolve the
duplicate names identically. -/
theorem c9_name_resolution_deterministic_witness :
    resolve_all_with [("a", 2)] ["a", "a"] [] 1 =
      resolve_all_with [("a", 2), ("a", 99)] ["a", "a"] [] 1 :=
  c9_name_resolution_deterministic ["a", "a"] 1 [("a", 2)] [("a", 2), ("a", 99)]
    (by
      intro k
      cases hb : (("a" : String) == k) <;>
        simp [lookup_count, List.find?, hb])
    []

/-- C10: `write_string` (and so `write_name`) iterates character lookups
over the string's BYTE length, so it panics (`Option.none`) exactly on
strings containing a multi-byte (non-ASCII) character, and for all-ASCII
strings it succeeds with exactly as many payload bytes as the declared
length prefix. -/
theorem c10_write_string_ascii_only :
    ∀ s : String,
      (write_string s = Option.none ↔ allAscii s = false) ∧
      (write_name s = Option.none ↔ allAscii s = false) ∧
      (allAscii s = true → ∃ bs, write_string s = some bs ∧ bs.length = utf8Len s ∧
        write_name s = some (leBytes 8 (utf8Len s) ++ bs)) := by
  intro s
  by_cases h : allAscii s = true
  · have hl : utf8Len s = s.data.length := (allAscii_iff s).mp h
    rcases writeBytesFrom_some s.data (utf8Len s) 0 (by omega) with ⟨bs, hbs, hlen⟩
    have hws : write_string s = some bs := hbs
    have hwn : write_name s = some (leBytes 8 (utf8Len s) ++ bs) := by
      rw [write_name, hws]; rfl
    refine ⟨?_, ?_, fun _ => ⟨bs, hws, hlen, hwn⟩⟩
    · rw [hws, h]; simp
    · rw [hwn, h]; simp
  · have hf : allAscii s = false := by
      cases hv : allAscii s
      · rfl
      · exact absurd hv h
    have hne : utf8Len s ≠ s.data.length := fun e => h ((allAscii_iff s).mpr e)
    have hge : s.data.length ≤ utf8Len s := by
      rw [utf8Len_data]; exact length_le_utf8Len s.data
    have hnone : write_string s = Option.none :=
      writeBytesFrom_none s.data (utf8Len s) 0 (by omega) (by omega)
    have hnn : write_name s = Option.none := by rw [write_name, hnone]; rfl
    exact ⟨iff_of_true hnone hf, iff_of_true hnn hf,
      fun hc => absurd hc (by rw [hf]; simp)⟩

/-- Witness for C10: the two-byte character `é` makes `write_string`
panic, while the ASCII string `ok` round-trips with a matching length
prefix. -/
theorem c10_write_string_ascii_only_witness :
    write_string "é" = Option.none ∧
    ∃ bs, write_string "ok" = some bs ∧ bs.length = utf8Len "ok" ∧
      write_name "ok" = some (leBytes 8 (utf8Len "ok") ++ bs) :=
  ⟨(c10_write_string_ascii_only "é").1.mpr (by decide),
    (c10_write_string_ascii_only "ok").2.2 (by decide)⟩

end VdbRs
